import Mathlib

/-!
Shallow embedding of kluster-manager/addon-framework, covering
`pkg/basecontroller/factory/factory.go` (controller factory) and the
addonfactory file (`AgentAddonFactory`, `validateSupportedConfigGVRs`,
`BuildHelmAgentAddon`, `BuildTemplateAgentAddon`).
-/

/-- Opaque model of a `runtime.Object` (and of untyped event payloads). -/
def Obj := Nat

/-- DefaultQueueKey is the queue key used for string trigger based controllers. -/
def DefaultQueueKey : String := "key"

/-- ObjectQueueKeysFunc makes work-queue string keys out of a runtime object. -/
def ObjectQueueKeysFunc := Obj → List String

/-- DefaultQueueKeysFunc returns a slice with a single element, the DefaultQueueKey. -/
def DefaultQueueKeysFunc : ObjectQueueKeysFunc := fun _ => [DefaultQueueKey]

/-- EventFilterFunc is used to filter informer events; the Go value may be nil,
which the embedding renders by storing `Option EventFilterFunc` at use sites. -/
def EventFilterFunc := Obj → Bool

/-- An informer handle. An informer is identified by an id; its `HasSynced`
predicate is the symbolic value `InformerSynced.ofInformer`, and the
`AddEventHandler` side effects performed by `ToController` are recorded in the
produced controller (field `attachments`). -/
structure Informer where
  id : Nat
deriving DecidableEq, Repr

/-- Model of `cache.InformerSynced`: either the `HasSynced` predicate of a known
informer, or an externally supplied readiness predicate. -/
inductive InformerSynced where
  | ofInformer (i : Informer)
  | external (id : Nat)
deriving DecidableEq, Repr

/-- Opaque handle for a user-supplied controller sync function. -/
structure SyncFunc where
  id : Nat
deriving DecidableEq, Repr

/-- Opaque handle for a custom SyncContext supplied through WithSyncContext. -/
structure CustomSyncContext where
  id : Nat
deriving DecidableEq, Repr

/-- The sync context carried by a built controller: the custom one from the
factory when present, otherwise a fresh one created from the controller name
(`NewSyncContext(name)`). -/
inductive SyncContextModel where
  | custom (c : CustomSyncContext)
  | fresh (name : String)
deriving DecidableEq, Repr

/-- Go struct `informersWithQueueKey`: informers sharing a filter and a queue-key
function. -/
structure informersWithQueueKey where
  informers : List Informer
  filter : Option EventFilterFunc
  queueKeyFn : ObjectQueueKeysFunc

/-- Go struct `filteredInformers`: informers sharing an event filter. -/
structure filteredInformers where
  informers : List Informer
  filter : Option EventFilterFunc

/-- Go struct `Factory`; `New()` returns the zero value. -/
structure Factory where
  sync : Option SyncFunc := none
  syncContext : Option CustomSyncContext := none
  resyncInterval : Nat := 0
  informers : List filteredInformers := []
  informerQueueKeys : List informersWithQueueKey := []
  bareInformers : List Informer := []
  cachesToSync : List InformerSynced := []

/-- New returns a new factory instance (the zero value of Factory). -/
def New : Factory := {}

/-- WithSync sets the controller synchronization function. -/
def Factory.WithSync (f : Factory) (syncFn : SyncFunc) : Factory :=
  { f with sync := some syncFn }

/-- WithFilteredEventsInformers registers informers with an event filter
(appends one `filteredInformers` group). -/
def Factory.WithFilteredEventsInformers (f : Factory) (filter : Option EventFilterFunc)
    (informers : List Informer) : Factory :=
  { f with informers := f.informers ++ [{ informers := informers, filter := filter }] }

/-- WithInformers registers informers: it calls WithFilteredEventsInformers with
a nil filter. -/
def Factory.WithInformers (f : Factory) (informers : List Informer) : Factory :=
  f.WithFilteredEventsInformers none informers

/-- WithBareInformers registers informers that already have custom event
handlers; only their caches will be waited for. -/
def Factory.WithBareInformers (f : Factory) (informers : List Informer) : Factory :=
  { f with bareInformers := f.bareInformers ++ informers }

/-- WithInformersQueueKeysFunc registers informers with a queue-key function
(the filter field is left at its zero value, nil). -/
def Factory.WithInformersQueueKeysFunc (f : Factory) (queueKeyFn : ObjectQueueKeysFunc)
    (informers : List Informer) : Factory :=
  { f with informerQueueKeys :=
      f.informerQueueKeys ++ [{ informers := informers, filter := none, queueKeyFn := queueKeyFn }] }

/-- WithFilteredEventsInformersQueueKeysFunc registers informers with both a
queue-key function and an event filter. -/
def Factory.WithFilteredEventsInformersQueueKeysFunc (f : Factory)
    (queueKeyFn : ObjectQueueKeysFunc) (filter : Option EventFilterFunc)
    (informers : List Informer) : Factory :=
  { f with informerQueueKeys :=
      f.informerQueueKeys ++ [{ informers := informers, filter := filter, queueKeyFn := queueKeyFn }] }

/-- ResyncEvery sets the periodic resync interval. -/
def Factory.ResyncEvery (f : Factory) (interval : Nat) : Factory :=
  { f with resyncInterval := interval }

/-- WithSyncContext specifies a custom, existing sync context for this factory. -/
def Factory.WithSyncContext (f : Factory) (ctx : CustomSyncContext) : Factory :=
  { f with syncContext := some ctx }

/-- Model of the event handler value built by `syncContext.eventHandler(queueKeyFn,
filter)`: it is determined by the queue-key function and the filter passed in. -/
structure EventHandler where
  queueKeyFn : ObjectQueueKeysFunc
  filter : Option EventFilterFunc

/-- Modelled from the spec: the default cache-sync timeout constant
(`defaultCacheSyncTimeout`) is declared in the base controller file, which is
not among the sources; only its existence and use as the default matter here. -/
def defaultCacheSyncTimeout : Nat := 600

/-- Go struct `baseController`, together with the record of the
`AddEventHandler` calls that `ToController` performed (`attachments`). -/
structure baseController where
  name : String
  sync : SyncFunc
  resyncEvery : Nat
  cachesToSync : List InformerSynced
  syncContext : SyncContextModel
  cacheSyncTimeout : Nat
  attachments : List (Informer × EventHandler)

/-- ToController produces a runnable controller. The Go code panics when no
sync function was set; the embedding returns `none` in that case. The three
loops mirror the Go source: informers with queue-key functions first, then
plain filtered informers (with DefaultQueueKeysFunc), then bare informers. -/
def Factory.ToController (f : Factory) (name : String) : Option baseController :=
  match f.sync with
  | none => none
  | some syncFn =>
    let ctx : SyncContextModel :=
      match f.syncContext with
      | some c => .custom c
      | none => .fresh name
    let c : baseController :=
      { name := name
        sync := syncFn
        resyncEvery := f.resyncInterval
        cachesToSync := [] ++ f.cachesToSync
        syncContext := ctx
        cacheSyncTimeout := defaultCacheSyncTimeout
        attachments := [] }
    let c := f.informerQueueKeys.foldl (fun c r =>
      r.informers.foldl (fun c informer =>
        { c with
            attachments :=
              c.attachments ++ [(informer, { queueKeyFn := r.queueKeyFn, filter := r.filter })]
            cachesToSync := c.cachesToSync ++ [.ofInformer informer] }) c) c
    let c := f.informers.foldl (fun c r =>
      r.informers.foldl (fun c informer =>
        { c with
            attachments :=
              c.attachments ++ [(informer, { queueKeyFn := DefaultQueueKeysFunc, filter := r.filter })]
            cachesToSync := c.cachesToSync ++ [.ofInformer informer] }) c) c
    let c := f.bareInformers.foldl (fun c informer =>
      { c with cachesToSync := c.cachesToSync ++ [.ofInformer informer] }) c
    some c

/-!
Model of the addonfactory file: `AgentAddonFactory`, its With* options,
`validateSupportedConfigGVRs` and the two Build functions.
-/

/-- Model of `schema.GroupVersionResource`. -/
structure GroupVersionResource where
  Group : String
  Version : String
  Resource : String
deriving DecidableEq, Repr

/-- Model of the k8s method `GroupVersionResource.Empty`: all three components
have length zero. -/
def GroupVersionResource.Empty (gvr : GroupVersionResource) : Bool :=
  gvr.Group = "" && gvr.Version = "" && gvr.Resource = ""

/-- Opaque handle for an embedded filesystem (`embed.FS`). -/
def EmbedFS := Nat

/-- Opaque handle for a `runtime.Scheme`; the AddToScheme registrations made by
the factory constructor are external k8s machinery and are not modelled. -/
def Scheme := Nat

/-- Opaque handle for an `agent.RegistrationOption`. -/
structure RegistrationOption where
  id : Nat
deriving DecidableEq, Repr

/-- Opaque handle for an `agent.HealthProber`. -/
structure HealthProber where
  id : Nat
deriving DecidableEq, Repr

/-- Opaque handle for an agent-deploy trigger cluster filter function. -/
structure ClusterFilter where
  id : Nat
deriving DecidableEq, Repr

/-- Opaque handle for a `clusterv1.ManagedCluster`. -/
structure ManagedCluster where
  id : Nat
deriving DecidableEq, Repr

/-- Model of `agent.InstallStrategy`: the InstallNamespace string plus an opaque
remainder standing for the other fields. -/
structure InstallStrategy where
  InstallNamespace : String
  rest : Nat := 0
deriving DecidableEq, Repr

/-- Opaque handle for a user-supplied GetValuesFunc. -/
structure GetValuesFunc where
  id : Nat
deriving DecidableEq, Repr

/-- The default installation namespace constant. -/
def AddonDefaultInstallNamespace : String := "open-cluster-management-agent-addon"

/-- Model of `agent.AgentAddonOptions` with the fields the addonfactory file
touches. -/
structure AgentAddonOptions where
  AddonName : String
  Registration : Option RegistrationOption := none
  InstallStrategy : Option InstallStrategy := none
  HealthProber : Option HealthProber := none
  SupportedConfigGVRs : List GroupVersionResource := []
  HostedModeEnabled : Bool := false
  AgentDeployTriggerClusterFilter : Option ClusterFilter := none

/-- Go struct `AgentAddonFactory`. -/
structure AgentAddonFactory where
  scheme : Scheme
  fs : EmbedFS
  dir : String
  getValuesFuncs : List GetValuesFunc := []
  agentAddonOptions : AgentAddonOptions
  trimCRDDescription : Bool := false
  hostingCluster : Option ManagedCluster := none

/-- The scheme built by NewAgentAddonFactory (runtime.NewScheme plus the three
AddToScheme registrations, all external); modelled as an opaque handle. -/
def newFactoryScheme : Scheme := (0 : Nat)

/-- NewAgentAddonFactory builds an addonAgentFactory instance with addon name
and fs; dir is the path prefix based on the fs path. -/
def NewAgentAddonFactory (addonName : String) (fs : EmbedFS) (dir : String) :
    AgentAddonFactory :=
  { scheme := newFactoryScheme
    fs := fs
    dir := dir
    agentAddonOptions :=
      { AddonName := addonName
        Registration := none
        InstallStrategy := none
        HealthProber := none
        SupportedConfigGVRs := [] }
    trimCRDDescription := false }

/-- WithGetValuesFuncs sets the list of the getValues funcs (it replaces the
whole list). -/
def AgentAddonFactory.WithGetValuesFuncs (f : AgentAddonFactory)
    (getValuesFuncs : List GetValuesFunc) : AgentAddonFactory :=
  { f with getValuesFuncs := getValuesFuncs }

/-- WithInstallStrategy defines the installation strategy; an empty
InstallNamespace is replaced by AddonDefaultInstallNamespace before the
strategy is stored in the options. -/
def AgentAddonFactory.WithInstallStrategy (f : AgentAddonFactory)
    (strategy : InstallStrategy) : AgentAddonFactory :=
  let strategy :=
    if strategy.InstallNamespace = "" then
      { strategy with InstallNamespace := AddonDefaultInstallNamespace }
    else strategy
  { f with agentAddonOptions := { f.agentAddonOptions with InstallStrategy := some strategy } }

/-- WithAgentRegistrationOption defines how the agent is registered to the hub. -/
def AgentAddonFactory.WithAgentRegistrationOption (f : AgentAddonFactory)
    (option : RegistrationOption) : AgentAddonFactory :=
  { f with agentAddonOptions := { f.agentAddonOptions with Registration := some option } }

/-- WithAgentHealthProber defines how addon healthiness is probed. -/
def AgentAddonFactory.WithAgentHealthProber (f : AgentAddonFactory)
    (prober : HealthProber) : AgentAddonFactory :=
  { f with agentAddonOptions := { f.agentAddonOptions with HealthProber := some prober } }

/-- WithAgentHostedModeEnabledOption enables the hosted deploying mode. -/
def AgentAddonFactory.WithAgentHostedModeEnabledOption (f : AgentAddonFactory) :
    AgentAddonFactory :=
  { f with agentAddonOptions := { f.agentAddonOptions with HostedModeEnabled := true } }

/-- WithTrimCRDDescription enables trimming the description of CRDs. -/
def AgentAddonFactory.WithTrimCRDDescription (f : AgentAddonFactory) :
    AgentAddonFactory :=
  { f with trimCRDDescription := true }

/-- WithConfigGVRs appends the supported configuration GroupVersionResources. -/
def AgentAddonFactory.WithConfigGVRs (f : AgentAddonFactory)
    (gvrs : List GroupVersionResource) : AgentAddonFactory :=
  { f with agentAddonOptions :=
      { f.agentAddonOptions with
          SupportedConfigGVRs := f.agentAddonOptions.SupportedConfigGVRs ++ gvrs } }

/-- WithHostingCluster defines the hosting cluster used in hosted mode. -/
def AgentAddonFactory.WithHostingCluster (f : AgentAddonFactory)
    (cluster : ManagedCluster) : AgentAddonFactory :=
  { f with hostingCluster := some cluster }

/-- WithAgentDeployTriggerClusterFilter sets the cluster trigger filter. -/
def AgentAddonFactory.WithAgentDeployTriggerClusterFilter (f : AgentAddonFactory)
    (filter : ClusterFilter) : AgentAddonFactory :=
  { f with agentAddonOptions :=
      { f.agentAddonOptions with AgentDeployTriggerClusterFilter := some filter } }

/-- The errors validateSupportedConfigGVRs can return, one constructor per
`fmt.Errorf` site. -/
inductive ConfigGVRError where
  | emptyType (index : Nat)
  | versionRequired (index : Nat)
  | resourceRequired (index : Nat)
  | duplicated (gvr : GroupVersionResource)
deriving DecidableEq, Repr

/-- The loop of validateSupportedConfigGVRs: index counts entries already
checked, seen models the `configGVRMap` of already-accepted entries. -/
def validateLoop : List GroupVersionResource → Nat → List GroupVersionResource →
    Option ConfigGVRError
  | [], _, _ => none
  | gvr :: rest, index, seen =>
    if gvr.Empty then some (.emptyType index)
    else if gvr.Version = "" then some (.versionRequired index)
    else if gvr.Resource = "" then some (.resourceRequired index)
    else if gvr ∈ seen then some (.duplicated gvr)
    else validateLoop rest (index + 1) (gvr :: seen)

/-- validateSupportedConfigGVRs returns nil (none) for an empty list, otherwise
checks each entry in order: Empty, missing Version, missing Resource, duplicate
of an earlier entry. -/
def validateSupportedConfigGVRs (configGVRs : List GroupVersionResource) :
    Option ConfigGVRError :=
  if configGVRs.length = 0 then none
  else validateLoop configGVRs 0 []

/-- Opaque handle for a loaded helm chart. -/
def Chart := Nat

/-- Opaque handle for a built agent addon. -/
def AgentAddon := Nat

/-- The errors the Build functions can surface besides validation errors. -/
inductive BuildError where
  | config (e : ConfigGVRError)
  | external (msg : String)
  | noTemplateFiles
deriving DecidableEq, Repr

/-- The helm agent addon constructor (`newHelmAgentAddon`, defined outside the
given sources) modelled as an opaque handle constructor. -/
def newHelmAgentAddon (_ : AgentAddonFactory) (chart : Chart) : AgentAddon := chart

/-- BuildHelmAgentAddon: validates the accumulated SupportedConfigGVRs and
fails with that error; otherwise it loads the chart (loadChart is outside the
given sources, abstracted by the loadChartResult argument) and builds the
addon. -/
def AgentAddonFactory.BuildHelmAgentAddon (f : AgentAddonFactory)
    (loadChartResult : Except String Chart) : Except BuildError AgentAddon :=
  match validateSupportedConfigGVRs f.agentAddonOptions.SupportedConfigGVRs with
  | some e => .error (.config e)
  | none =>
    match loadChartResult with
    | .error msg => .error (.external msg)
    | .ok userChart => .ok (newHelmAgentAddon f userChart)

/-- The template-read loop of BuildTemplateAgentAddon: reads each file and
accumulates (file, template) data, failing on the first read error. -/
def addTemplates (readFile : String → Except String Nat) :
    List String → Except BuildError (List (String × Nat))
  | [] => .ok []
  | file :: rest =>
    match readFile file with
    | .error m => .error (.external m)
    | .ok t =>
      match addTemplates readFile rest with
      | .error e => .error e
      | .ok ts => .ok ((file, t) :: ts)

/-- BuildTemplateAgentAddon: validates the accumulated SupportedConfigGVRs and
fails with that error; otherwise it gets the template files (getTemplateFiles
is outside the given sources, abstracted by templateFilesResult), fails when
there are none, and reads each template into the addon (modelled as the list of
accumulated template data). -/
def AgentAddonFactory.BuildTemplateAgentAddon (f : AgentAddonFactory)
    (templateFilesResult : Except String (List String))
    (readFile : String → Except String Nat) : Except BuildError (List (String × Nat)) :=
  match validateSupportedConfigGVRs f.agentAddonOptions.SupportedConfigGVRs with
  | some e => .error (.config e)
  | none =>
    match templateFilesResult with
    | .error m => .error (.external m)
    | .ok templateFiles =>
      if templateFiles.length = 0 then .error .noTemplateFiles
      else addTemplates readFile templateFiles

/-!
Modelled-from-spec parts: the event handler acceptance policy and the run loop
of the base controller (their Go code lives in files not among the sources).
-/

/-- Modelled from the spec: the eventHandler built by the sync context (code
not among the sources) drops an event when the filter rejects it, and a
missing (nil) filter is equivalent to accept all. -/
def acceptsEvent (filter : Option EventFilterFunc) (o : Obj) : Bool :=
  match filter with
  | none => true
  | some fl => fl o

/-- Whether every readiness predicate reports true at time t; the environment
gives each predicate a truth value per discrete time step. -/
def allSynced (preds : List (Nat → Bool)) (t : Nat) : Bool :=
  preds.all fun p => p t

/-- Modelled from the spec: `waitForReady(timeout)` polls all predicates until
all are true or the timeout elapses; returns the first time (within the
timeout) at which every predicate is true. -/
def waitForCacheSync (preds : List (Nat → Bool)) (timeout : Nat) : Option Nat :=
  (List.range (timeout + 1)).find? fun t => allSynced preds t

/-- Modelled from the spec: the Run loop of the base controller (its Go code is
not among the sources). Run first waits for every cache to sync; on timeout it
returns an error and the workers never start, so no sync invocation happens;
on success the workers drain the pending keys, each invocation stamped with a
time not before the ready time. Returns the Run result and the list of sync
invocations as (time, key) pairs. -/
def runModel (c : baseController) (env : InformerSynced → Nat → Bool)
    (pendingKeys : List String) : Except String Unit × List (Nat × String) :=
  match waitForCacheSync (c.cachesToSync.map env) c.cacheSyncTimeout with
  | none => (.error "timed out waiting for cache sync", [])
  | some t => (.ok (), pendingKeys.enum.map fun p => (t + p.1, p.2))

/-!
Closed forms for the three registration loops of ToController.
-/

/-- The attachments contributed by the informerQueueKeys registrations. -/
def queueKeyAttachments (rs : List informersWithQueueKey) : List (Informer × EventHandler) :=
  rs.flatMap fun r => r.informers.map fun i => (i, { queueKeyFn := r.queueKeyFn, filter := r.filter })

/-- The attachments contributed by the plain filtered-informers registrations. -/
def plainAttachments (rs : List filteredInformers) : List (Informer × EventHandler) :=
  rs.flatMap fun r => r.informers.map fun i => (i, { queueKeyFn := DefaultQueueKeysFunc, filter := r.filter })

/-- The informers of the informerQueueKeys registrations, in loop order. -/
def qkInformers (rs : List informersWithQueueKey) : List Informer :=
  rs.flatMap fun r => r.informers

/-- The informers of the plain filtered-informers registrations, in loop order. -/
def plainInformers (rs : List filteredInformers) : List Informer :=
  rs.flatMap fun r => r.informers

theorem qkInner_eq (r : informersWithQueueKey) (is : List Informer) (c : baseController) :
    is.foldl (fun c informer =>
        { c with
            attachments :=
              c.attachments ++ [(informer, { queueKeyFn := r.queueKeyFn, filter := r.filter })]
            cachesToSync := c.cachesToSync ++ [.ofInformer informer] }) c =
      { c with
          attachments :=
            c.attachments ++ is.map fun i => (i, { queueKeyFn := r.queueKeyFn, filter := r.filter })
          cachesToSync := c.cachesToSync ++ is.map .ofInformer } := by
  induction is generalizing c with
  | nil => simp
  | cons i rest ih =>
    simp only [List.foldl_cons, List.map_cons, ih]
    simp [List.append_assoc]

theorem qkFold_eq (rs : List informersWithQueueKey) (c : baseController) :
    rs.foldl (fun c r =>
        r.informers.foldl (fun c informer =>
          { c with
              attachments :=
                c.attachments ++ [(informer, { queueKeyFn := r.queueKeyFn, filter := r.filter })]
              cachesToSync := c.cachesToSync ++ [.ofInformer informer] }) c) c =
      { c with
          attachments := c.attachments ++ queueKeyAttachments rs
          cachesToSync := c.cachesToSync ++ (qkInformers rs).map .ofInformer } := by
  induction rs generalizing c with
  | nil => simp [queueKeyAttachments, qkInformers]
  | cons r rest ih =>
    rw [List.foldl_cons, qkInner_eq, ih]
    simp [queueKeyAttachments, qkInformers, List.append_assoc]

theorem plainInner_eq (r : filteredInformers) (is : List Informer) (c : baseController) :
    is.foldl (fun c informer =>
        { c with
            attachments :=
              c.attachments ++ [(informer, { queueKeyFn := DefaultQueueKeysFunc, filter := r.filter })]
            cachesToSync := c.cachesToSync ++ [.ofInformer informer] }) c =
      { c with
          attachments :=
            c.attachments ++ is.map fun i => (i, { queueKeyFn := DefaultQueueKeysFunc, filter := r.filter })
          cachesToSync := c.cachesToSync ++ is.map .ofInformer } := by
  induction is generalizing c with
  | nil => simp
  | cons i rest ih =>
    simp only [List.foldl_cons, List.map_cons, ih]
    simp [List.append_assoc]

theorem plainFold_eq (rs : List filteredInformers) (c : baseController) :
    rs.foldl (fun c r =>
        r.informers.foldl (fun c informer =>
          { c with
              attachments :=
                c.attachments ++ [(informer, { queueKeyFn := DefaultQueueKeysFunc, filter := r.filter })]
              cachesToSync := c.cachesToSync ++ [.ofInformer informer] }) c) c =
      { c with
          attachments := c.attachments ++ plainAttachments rs
          cachesToSync := c.cachesToSync ++ (plainInformers rs).map .ofInformer } := by
  induction rs generalizing c with
  | nil => simp [plainAttachments, plainInformers]
  | cons r rest ih =>
    rw [List.foldl_cons, plainInner_eq, ih]
    simp [plainAttachments, plainInformers, List.append_assoc]

theorem bareFold_eq (is : List Informer) (c : baseController) :
    is.foldl (fun c informer =>
        { c with cachesToSync := c.cachesToSync ++ [.ofInformer informer] }) c =
      { c with cachesToSync := c.cachesToSync ++ is.map .ofInformer } := by
  induction is generalizing c with
  | nil => simp
  | cons i rest ih =>
    simp only [List.foldl_cons, ih]
    simp [List.append_assoc]

/-- The controller ToController builds for a factory whose sync is set. -/
def builtController (f : Factory) (syncFn : SyncFunc) (name : String) : baseController :=
  { name := name
    sync := syncFn
    resyncEvery := f.resyncInterval
    cachesToSync :=
      f.cachesToSync ++ (qkInformers f.informerQueueKeys).map .ofInformer
        ++ (plainInformers f.informers).map .ofInformer
        ++ f.bareInformers.map .ofInformer
    syncContext :=
      match f.syncContext with
      | some c => .custom c
      | none => .fresh name
    cacheSyncTimeout := defaultCacheSyncTimeout
    attachments := queueKeyAttachments f.informerQueueKeys ++ plainAttachments f.informers }

theorem toController_eq (f : Factory) (name : String) (syncFn : SyncFunc)
    (h : f.sync = some syncFn) :
    f.ToController name = some (builtController f syncFn name) := by
  unfold Factory.ToController
  rw [h]
  simp only [qkFold_eq, plainFold_eq, bareFold_eq, builtController]
  simp [List.append_assoc]

/-!
Helper lemmas used by several claims.
-/

theorem toController_some_inv (f : Factory) (name : String) (c : baseController)
    (h : f.ToController name = some c) :
    ∃ syncFn, f.sync = some syncFn ∧ c = builtController f syncFn name := by
  cases hs : f.sync with
  | none =>
    unfold Factory.ToController at h
    rw [hs] at h
    exact absurd h (by simp)
  | some s =>
    have he := toController_eq f name s hs
    rw [he] at h
    exact ⟨s, rfl, (Option.some.inj h).symm⟩

/-!
Claim theorems.
-/

/-- C4: for every runtime object, DefaultQueueKeysFunc returns exactly the
one-element list containing the constant key "key" (DefaultQueueKey),
independent of the object. -/
theorem defaultQueueKeysFunc_constant (o : Obj) :
    DefaultQueueKeysFunc o = [DefaultQueueKey] ∧ DefaultQueueKey = "key" :=
  ⟨rfl, rfl⟩

/-- C2: with no sync function set, ToController fails at construction time and
returns no controller (the Go code panics; the embedding returns none); with a
sync function set, ToController returns a controller. -/
theorem toController_fails_iff_no_sync (f : Factory) (name : String) :
    (f.sync = none → f.ToController name = none) ∧
    (∀ syncFn, f.sync = some syncFn → ∃ c, f.ToController name = some c) := by
  constructor
  · intro hs
    unfold Factory.ToController
    rw [hs]
  · intro syncFn hs
    exact ⟨builtController f syncFn name, toController_eq f name syncFn hs⟩

/-- C1: the controller returned by ToController carries in cachesToSync the
HasSynced predicate of every informer of every registration (queue-key
registrations, plain filtered registrations, bare informers); an informer
registered only as a bare informer gets no event handler attached by
ToController. -/
theorem toController_cachesToSync_complete (f : Factory) (name : String)
    (c : baseController) (h : f.ToController name = some c) :
    (∀ r ∈ f.informerQueueKeys, ∀ i ∈ r.informers,
        InformerSynced.ofInformer i ∈ c.cachesToSync) ∧
    (∀ r ∈ f.informers, ∀ i ∈ r.informers,
        InformerSynced.ofInformer i ∈ c.cachesToSync) ∧
    (∀ i ∈ f.bareInformers, InformerSynced.ofInformer i ∈ c.cachesToSync) ∧
    (∀ i ∈ f.bareInformers,
      (∀ r ∈ f.informerQueueKeys, i ∉ r.informers) →
      (∀ r ∈ f.informers, i ∉ r.informers) →
      ∀ a ∈ c.attachments, a.1 ≠ i) := by
  obtain ⟨s, hs, rfl⟩ := toController_some_inv f name c h
  refine ⟨?_, ?_, ?_, ?_⟩
  · intro r hr i hi
    apply List.mem_append_left
    apply List.mem_append_left
    apply List.mem_append_right
    exact List.mem_map_of_mem _ (List.mem_flatMap.mpr ⟨r, hr, hi⟩)
  · intro r hr i hi
    apply List.mem_append_left
    apply List.mem_append_right
    exact List.mem_map_of_mem _ (List.mem_flatMap.mpr ⟨r, hr, hi⟩)
  · intro i hi
    apply List.mem_append_right
    exact List.mem_map_of_mem _ hi
  · intro i _ hqk hpl a ha
    rcases List.mem_append.mp ha with h1 | h2
    · rcases List.mem_flatMap.mp h1 with ⟨r, hr, hm⟩
      rcases List.mem_map.mp hm with ⟨j, hj, rfl⟩
      intro hji
      exact hqk r hr (hji ▸ hj)
    · rcases List.mem_flatMap.mp h2 with ⟨r, hr, hm⟩
      rcases List.mem_map.mp hm with ⟨j, hj, rfl⟩
      intro hji
      exact hpl r hr (hji ▸ hj)

/-- C3: every informer registered through a queue-key registration gets an
event handler built with its supplied queueKeyFn, and every informer of a
plain (filtered) registration gets an event handler built with
DefaultQueueKeysFunc. -/
theorem toController_attachments_eq (f : Factory) (name : String)
    (c : baseController) (h : f.ToController name = some c) :
    c.attachments =
      (f.informerQueueKeys.flatMap fun r =>
        r.informers.map fun i => (i, { queueKeyFn := r.queueKeyFn, filter := r.filter })) ++
      (f.informers.flatMap fun r =>
        r.informers.map fun i => (i, { queueKeyFn := DefaultQueueKeysFunc, filter := r.filter })) := by
  obtain ⟨s, hs, rfl⟩ := toController_some_inv f name c h
  rfl

/-- C6: the configuration of the built controller is the factory configuration
at construction time: the given name, the configured sync function, the
configured resync interval (zero in a fresh factory, where ResyncEvery was
never called), the default cache-sync timeout, and the readiness list copied
from the factory followed by the registered informers. -/
theorem toController_config_frozen (f : Factory) (name : String)
    (c : baseController) (h : f.ToController name = some c) :
    c.name = name ∧
    f.sync = some c.sync ∧
    c.resyncEvery = f.resyncInterval ∧
    c.cacheSyncTimeout = defaultCacheSyncTimeout ∧
    c.cachesToSync =
      f.cachesToSync ++ (qkInformers f.informerQueueKeys).map .ofInformer
        ++ (plainInformers f.informers).map .ofInformer
        ++ f.bareInformers.map .ofInformer ∧
    New.resyncInterval = 0 ∧
    (∀ n, (Factory.ResyncEvery f n).resyncInterval = n) := by
  obtain ⟨s, hs, rfl⟩ := toController_some_inv f name c h
  exact ⟨rfl, hs, rfl, rfl, rfl, rfl, fun _ => rfl⟩

/-- C7: registering informers through WithInformers produces exactly the same
factory state as WithFilteredEventsInformers with a nil filter, and a nil
filter accepts every event. -/
theorem withInformers_eq_filtered_none (f : Factory) (informers : List Informer) :
    f.WithInformers informers = f.WithFilteredEventsInformers none informers ∧
    ∀ o : Obj, acceptsEvent none o = true :=
  ⟨rfl, fun _ => rfl⟩

/-- C5: no sync invocation happens before every readiness predicate reports
true, and when they never all report true within the cache-sync timeout, Run
returns an error with zero sync invocations. -/
theorem runModel_readiness_gating (c : baseController)
    (env : InformerSynced → Nat → Bool) (keys : List String) :
    ((∀ t, t ≤ c.cacheSyncTimeout → allSynced (c.cachesToSync.map env) t = false) →
      runModel c env keys = (.error "timed out waiting for cache sync", [])) ∧
    (∀ p ∈ (runModel c env keys).2,
      ∃ t0, t0 ≤ p.1 ∧ allSynced (c.cachesToSync.map env) t0 = true) := by
  constructor
  · intro hfail
    unfold runModel
    cases hfind : waitForCacheSync (c.cachesToSync.map env) c.cacheSyncTimeout with
    | none => rfl
    | some t =>
      have ht : allSynced (c.cachesToSync.map env) t = true := List.find?_some hfind
      have hmem : t ∈ List.range (c.cacheSyncTimeout + 1) := List.mem_of_find?_eq_some hfind
      have hle : t ≤ c.cacheSyncTimeout := Nat.lt_succ_iff.mp (List.mem_range.mp hmem)
      rw [hfail t hle] at ht
      exact absurd ht (by simp)
  · intro p hp
    unfold runModel at hp
    cases hfind : waitForCacheSync (c.cachesToSync.map env) c.cacheSyncTimeout with
    | none => rw [hfind] at hp; exact absurd hp (by simp)
    | some t =>
      rw [hfind] at hp
      have ht : allSynced (c.cachesToSync.map env) t = true := List.find?_some hfind
      rcases List.mem_map.mp hp with ⟨q, _, rfl⟩
      exact ⟨t, Nat.le_add_right t q.1, ht⟩

/-!
Concrete example used by the witnesses of C1, C3 and C6.
-/

/-- A sample queue-key function for the concrete examples. -/
def exQueueKeyFn : ObjectQueueKeysFunc := fun _ => ["ns/a"]

/-- A concrete factory exercising every registration kind. -/
def exFactory : Factory :=
  ((((New.WithSync ⟨7⟩).WithInformers [⟨1⟩]).WithInformersQueueKeysFunc
    exQueueKeyFn [⟨2⟩]).WithBareInformers [⟨3⟩]).ResyncEvery 5

/-- The controller exFactory builds. -/
def exController : baseController := builtController exFactory ⟨7⟩ "example"

theorem toController_cachesToSync_complete_witness :
    (∀ r ∈ exFactory.informerQueueKeys, ∀ i ∈ r.informers,
        InformerSynced.ofInformer i ∈ exController.cachesToSync) ∧
    (∀ r ∈ exFactory.informers, ∀ i ∈ r.informers,
        InformerSynced.ofInformer i ∈ exController.cachesToSync) ∧
    (∀ i ∈ exFactory.bareInformers, InformerSynced.ofInformer i ∈ exController.cachesToSync) ∧
    (∀ i ∈ exFactory.bareInformers,
      (∀ r ∈ exFactory.informerQueueKeys, i ∉ r.informers) →
      (∀ r ∈ exFactory.informers, i ∉ r.informers) →
      ∀ a ∈ exController.attachments, a.1 ≠ i) :=
  toController_cachesToSync_complete exFactory "example" exController rfl

theorem toController_attachments_eq_witness :
    exController.attachments =
      (exFactory.informerQueueKeys.flatMap fun r =>
        r.informers.map fun i => (i, { queueKeyFn := r.queueKeyFn, filter := r.filter })) ++
      (exFactory.informers.flatMap fun r =>
        r.informers.map fun i => (i, { queueKeyFn := DefaultQueueKeysFunc, filter := r.filter })) :=
  toController_attachments_eq exFactory "example" exController rfl

theorem toController_config_frozen_witness :
    exController.name = "example" ∧
    exFactory.sync = some exController.sync ∧
    exController.resyncEvery = exFactory.resyncInterval ∧
    exController.cacheSyncTimeout = defaultCacheSyncTimeout ∧
    exController.cachesToSync =
      exFactory.cachesToSync ++ (qkInformers exFactory.informerQueueKeys).map .ofInformer
        ++ (plainInformers exFactory.informers).map .ofInformer
        ++ exFactory.bareInformers.map .ofInformer ∧
    New.resyncInterval = 0 ∧
    (∀ n, (Factory.ResyncEvery exFactory n).resyncInterval = n) :=
  toController_config_frozen exFactory "example" exController rfl

/-!
Validation lemmas for the addonfactory claims.
-/

theorem validateLoop_eq_none_iff (l : List GroupVersionResource) (idx : Nat)
    (seen : List GroupVersionResource) :
    validateLoop l idx seen = none ↔
      (∀ g ∈ l, g.Empty = false ∧ g.Version ≠ "" ∧ g.Resource ≠ "") ∧
        l.Nodup ∧ ∀ g ∈ l, g ∉ seen := by
  induction l generalizing idx seen with
  | nil => simp [validateLoop]
  | cons g rest ih =>
    by_cases h1 : g.Empty
    · simp only [validateLoop, if_pos h1]
      simp only [List.mem_cons]
      constructor
      · intro h; exact absurd h (by simp)
      · rintro ⟨hall, -, -⟩
        exact absurd (hall g (Or.inl rfl)).1 (by simp [h1])
    · by_cases h2 : g.Version = ""
      · simp only [validateLoop, if_neg h1, if_pos h2]
        simp only [List.mem_cons]
        constructor
        · intro h; exact absurd h (by simp)
        · rintro ⟨hall, -, -⟩
          exact absurd h2 (hall g (Or.inl rfl)).2.1
      · by_cases h3 : g.Resource = ""
        · simp only [validateLoop, if_neg h1, if_neg h2, if_pos h3]
          simp only [List.mem_cons]
          constructor
          · intro h; exact absurd h (by simp)
          · rintro ⟨hall, -, -⟩
            exact absurd h3 (hall g (Or.inl rfl)).2.2
        · by_cases h4 : g ∈ seen
          · simp only [validateLoop, if_neg h1, if_neg h2, if_neg h3, if_pos h4]
            simp only [List.mem_cons]
            constructor
            · intro h; exact absurd h (by simp)
            · rintro ⟨-, -, hseen⟩
              exact absurd h4 (hseen g (Or.inl rfl))
          · simp only [validateLoop, if_neg h1, if_neg h2, if_neg h3, if_neg h4, ih]
            constructor
            · rintro ⟨hall, hnd, hseen⟩
              refine ⟨?_, ?_, ?_⟩
              · intro x hx
                rcases List.mem_cons.mp hx with rfl | hx
                · exact ⟨Bool.eq_false_iff.mpr h1, h2, h3⟩
                · exact hall x hx
              · refine List.nodup_cons.mpr ⟨?_, hnd⟩
                intro hg
                exact hseen g hg (List.mem_cons_self g seen)
              · intro x hx
                rcases List.mem_cons.mp hx with rfl | hx
                · exact h4
                · exact fun hxs => hseen x hx (List.mem_cons.mpr (Or.inr hxs))
            · rintro ⟨hall, hnd, hseen⟩
              refine ⟨?_, List.Nodup.of_cons hnd, ?_⟩
              · intro x hx
                exact hall x (List.mem_cons.mpr (Or.inr hx))
              · intro x hx
                have hne : x ≠ g := by
                  intro he
                  exact (List.nodup_cons.mp hnd).1 (he ▸ hx)
                intro hmem
                rcases List.mem_cons.mp hmem with he | hxs
                · exact hne he
                · exact hseen x (List.mem_cons.mpr (Or.inr hx)) hxs

theorem validate_eq_none_iff (l : List GroupVersionResource) :
    validateSupportedConfigGVRs l = none ↔
      l = [] ∨
        ((∀ g ∈ l, g.Empty = false ∧ g.Version ≠ "" ∧ g.Resource ≠ "") ∧ l.Nodup) := by
  unfold validateSupportedConfigGVRs
  by_cases h : l.length = 0
  · simp [h, List.length_eq_zero.mp h]
  · rw [if_neg h, validateLoop_eq_none_iff]
    have hne : l ≠ [] := fun he => h (by simp [he])
    simp [hne]

/-- C8: validateSupportedConfigGVRs returns nil exactly when the list is empty
or every entry is non-empty with non-empty Version and Resource and no two
entries are equal; both Build functions return an error whenever this
validation fails on the accumulated SupportedConfigGVRs. -/
theorem validateSupportedConfigGVRs_spec (l : List GroupVersionResource) :
    (validateSupportedConfigGVRs l = none ↔
      l = [] ∨
        ((∀ g ∈ l, g.Empty = false ∧ g.Version ≠ "" ∧ g.Resource ≠ "") ∧ l.Nodup)) ∧
    (∀ (f : AgentAddonFactory) (loadChartResult : Except String Chart)
        (templateFilesResult : Except String (List String))
        (readFile : String → Except String Nat) (e : ConfigGVRError),
      validateSupportedConfigGVRs f.agentAddonOptions.SupportedConfigGVRs = some e →
        f.BuildHelmAgentAddon loadChartResult = .error (.config e) ∧
        f.BuildTemplateAgentAddon templateFilesResult readFile = .error (.config e)) := by
  refine ⟨validate_eq_none_iff l, ?_⟩
  intro f loadChartResult templateFilesResult readFile e he
  constructor
  · unfold AgentAddonFactory.BuildHelmAgentAddon
    rw [he]
  · unfold AgentAddonFactory.BuildTemplateAgentAddon
    rw [he]

/-- C9: WithInstallStrategy replaces an empty InstallNamespace with the default
namespace before storing the strategy, leaves a non-empty InstallNamespace
unchanged, and the default is the expected constant. -/
theorem withInstallStrategy_defaults_namespace (f : AgentAddonFactory)
    (s : InstallStrategy) :
    (s.InstallNamespace = "" →
      (f.WithInstallStrategy s).agentAddonOptions.InstallStrategy =
        some { s with InstallNamespace := AddonDefaultInstallNamespace }) ∧
    (s.InstallNamespace ≠ "" →
      (f.WithInstallStrategy s).agentAddonOptions.InstallStrategy = some s) ∧
    AddonDefaultInstallNamespace = "open-cluster-management-agent-addon" := by
  refine ⟨?_, ?_, rfl⟩
  · intro h
    simp [AgentAddonFactory.WithInstallStrategy, h]
  · intro h
    simp [AgentAddonFactory.WithInstallStrategy, h]

/-- C10: WithConfigGVRs appends to the accumulated SupportedConfigGVRs and
changes nothing else, WithGetValuesFuncs replaces the whole getValuesFuncs
list and changes nothing else, and appending an already-present GVR makes a
later validation (hence a later build) fail. -/
theorem withConfigGVRs_appends_getValuesFuncs_replaces (f : AgentAddonFactory)
    (gvrs : List GroupVersionResource) (fns : List GetValuesFunc) :
    ((f.WithConfigGVRs gvrs).agentAddonOptions.SupportedConfigGVRs =
      f.agentAddonOptions.SupportedConfigGVRs ++ gvrs) ∧
    ((f.WithGetValuesFuncs fns).getValuesFuncs = fns) ∧
    (f.WithConfigGVRs gvrs).scheme = f.scheme ∧
    (f.WithConfigGVRs gvrs).fs = f.fs ∧
    (f.WithConfigGVRs gvrs).dir = f.dir ∧
    (f.WithConfigGVRs gvrs).getValuesFuncs = f.getValuesFuncs ∧
    (f.WithConfigGVRs gvrs).trimCRDDescription = f.trimCRDDescription ∧
    (f.WithConfigGVRs gvrs).hostingCluster = f.hostingCluster ∧
    (f.WithConfigGVRs gvrs).agentAddonOptions.AddonName = f.agentAddonOptions.AddonName ∧
    (f.WithConfigGVRs gvrs).agentAddonOptions.Registration = f.agentAddonOptions.Registration ∧
    (f.WithConfigGVRs gvrs).agentAddonOptions.InstallStrategy = f.agentAddonOptions.InstallStrategy ∧
    (f.WithConfigGVRs gvrs).agentAddonOptions.HealthProber = f.agentAddonOptions.HealthProber ∧
    (f.WithConfigGVRs gvrs).agentAddonOptions.HostedModeEnabled = f.agentAddonOptions.HostedModeEnabled ∧
    (f.WithConfigGVRs gvrs).agentAddonOptions.AgentDeployTriggerClusterFilter =
      f.agentAddonOptions.AgentDeployTriggerClusterFilter ∧
    (f.WithGetValuesFuncs fns).scheme = f.scheme ∧
    (f.WithGetValuesFuncs fns).fs = f.fs ∧
    (f.WithGetValuesFuncs fns).dir = f.dir ∧
    (f.WithGetValuesFuncs fns).agentAddonOptions = f.agentAddonOptions ∧
    (f.WithGetValuesFuncs fns).trimCRDDescription = f.trimCRDDescription ∧
    (f.WithGetValuesFuncs fns).hostingCluster = f.hostingCluster ∧
    (∀ g ∈ f.agentAddonOptions.SupportedConfigGVRs,
      validateSupportedConfigGVRs ((f.WithConfigGVRs [g]).agentAddonOptions.SupportedConfigGVRs) ≠ none) := by
  refine ⟨rfl, rfl, rfl, rfl, rfl, rfl, rfl, rfl, rfl, rfl, rfl, rfl, rfl, rfl, rfl, rfl,
    rfl, rfl, rfl, rfl, ?_⟩
  intro g hg hnone
  rw [show (f.WithConfigGVRs [g]).agentAddonOptions.SupportedConfigGVRs =
      f.agentAddonOptions.SupportedConfigGVRs ++ [g] from rfl] at hnone
  rw [validate_eq_none_iff] at hnone
  rcases hnone with he | ⟨-, hnd⟩
  · simp at he
  · rw [List.nodup_append] at hnd
    exact hnd.2.2 hg (by simp)
